import Mathlib

/-!
Verification of the "Blue Prince - simplified" game core (`model/entities.py`).

This file is a shallow embedding of the data model and of the operations of
the generation and rule-resolution core: tiles and their ports, the rarity
weighted sampler, the placement solver, the door-lock policy, the selection
state machine, the effect resolver and the reachability check.  Randomness is
modelled by an explicit oracle (`Rng`): every concrete run of the Python code
corresponds to one oracle value, and theorems quantify over the oracle.
Python object identity is modelled by the `pid` field of `Piece`: all deck
entries referencing the same catalog object carry the same `pid`, and distinct
catalog objects carry distinct `pid`s (so structural equality of `Piece`
values coincides with object identity).
-/

/-- The four cardinal directions (keys of the `DIRS` dict). -/
inductive Dir
  | up
  | down
  | left
  | right
deriving DecidableEq, Repr

/-- The `OPP` map of the source: the opposite direction. -/
def OPP : Dir → Dir
  | .up => .down
  | .down => .up
  | .left => .right
  | .right => .left

/-- Row delta of a direction, from the `DIRS` dict. -/
def dRow : Dir → Int
  | .up => -1
  | .down => 1
  | .left => 0
  | .right => 0

/-- Column delta of a direction, from the `DIRS` dict. -/
def dCol : Dir → Int
  | .up => 0
  | .down => 0
  | .left => 0 - 1
  | .right => 1

/-- Iteration order of the `DIRS` dict in the source. -/
def dirList : List Dir := [.up, .down, .left, .right]

/-- Port flags of a tile, one per direction (the `ports` dict of a `Piece`). -/
structure Ports where
  up : Bool
  down : Bool
  left : Bool
  right : Bool
deriving DecidableEq, Repr

/-- Look a direction up in a port map. -/
def pget (p : Ports) : Dir → Bool
  | .up => p.up
  | .down => p.down
  | .left => p.left
  | .right => p.right

/-- One clockwise quarter turn along the cycle `DIR_ORDER` = up, right, down,
left: the port that faced `up` now faces `right`, and so on. -/
def rotateOnce (p : Ports) : Ports :=
  { up := p.left, down := p.right, left := p.down, right := p.up }

/-- `rotated_ports(ports, quarter_turns)` of the source: the port map rotated
by `q % 4` clockwise quarter turns. -/
def rotated_ports (p : Ports) (q : Nat) : Ports :=
  rotateOnce^[q % 4] p

/-- A declarative effect descriptor: the `{'type': ..., 'amount': ...,
'spawn': ...}` dicts attached to tiles.  A missing `amount` is read with
default 0 by the source (`effects.get('amount', 0)`), and a missing `spawn`
only matters for the `spawn` type, so both are stored with defaults. -/
structure Eff where
  typ : String
  amount : Int := 0
  spawnKind : String := ""
deriving DecidableEq, Repr

/-- A room tile (the `Piece` class).  `pid` stands for Python object identity
(see the file header); the remaining fields are the attributes of `Piece`,
with `obj` split into its `on_enter` and `on_draw` entries. -/
structure Piece where
  pid : Nat
  nom : String
  ports : Ports
  cout : Nat
  degre_rarete : Nat
  cond_deplac : Option String
  couleur : String
  onEnter : Option Eff := none
  onDraw : Option Eff := none
deriving DecidableEq, Repr

instance : Inhabited Piece :=
  ⟨⟨0, "", ⟨false, false, false, false⟩, 0, 0, none, "", none, none⟩⟩

/-- `Piece.proba_tirage`: the draw weight `1 / 3 ** degre_rarete`. -/
def proba_tirage (p : Piece) : ℚ :=
  1 / 3 ^ p.degre_rarete

/-- Helper mirroring `make_piece`: build a catalog entry (image id dropped,
ports given in the dict order up, down, left, right). -/
def mkP (pid : Nat) (nom : String) (pu pd pl pr : Bool) (cout rare : Nat)
    (cond : Option String) (couleur : String) (oe od : Option Eff) : Piece :=
  ⟨pid, nom, ⟨pu, pd, pl, pr⟩, cout, rare, cond, couleur, oe, od⟩

def entranceHall : Piece :=
  mkP 0 "Entrance Hall" true false true true 0 0 none "blue" (some ⟨"start", 0, ""⟩) none

def attic : Piece :=
  mkP 1 "Attic" false true false false 3 3 none "blue" (some ⟨"attic_loot", 0, ""⟩) none

def ballroom : Piece :=
  mkP 2 "Ballroom" true true false false 2 2 none "blue" (some ⟨"set_gems", 2, ""⟩) none

def bedroom : Piece :=
  mkP 3 "Bedroom" false true true false 0 1 none "purple" (some ⟨"steps_gain", 2, ""⟩) none

def billiardRoom : Piece :=
  mkP 4 "Billiard Room" false true true false 0 1 none "blue" none none

def boilerRoom : Piece :=
  mkP 5 "Boiler Room" false true true true 1 2 none "blue" (some ⟨"marteau", 0, ""⟩) none

def bookshop : Piece :=
  mkP 6 "Bookshop" false true true false 1 3 (some "corner") "yellow" (some ⟨"shop", 0, ""⟩) none

def bunkRoom : Piece :=
  mkP 7 "Bunk Room" false true false false 0 2 none "purple" (some ⟨"steps_gain", 4, ""⟩) none

def boudoir : Piece :=
  mkP 8 "Boudoir" false true true false 0 1 none "purple" (some ⟨"steps_gain", 2, ""⟩) none

def chamberOfMirrors : Piece :=
  mkP 9 "Chamber of Mirrors" false true false false 0 3 (some "center") "blue" none none

def chapel : Piece :=
  mkP 10 "Chapel" false true true true 0 1 none "red" (some ⟨"lose_coin", 1, ""⟩) none

def cloister : Piece :=
  mkP 11 "Cloister" true true true true 0 1 none "green" none none

def closet : Piece :=
  mkP 12 "Closet" false true false false 0 1 none "blue" none none

def coatCheck : Piece :=
  mkP 13 "Coat Check" false true false false 0 1 none "blue" none none

def commissary : Piece :=
  mkP 14 "Commissary" false true true false 1 2 none "yellow" (some ⟨"shop", 0, ""⟩) none

def conferenceRoom : Piece :=
  mkP 15 "Conference Room" false true true true 1 2 none "blue" none none

def corridor : Piece :=
  mkP 16 "Corridor" true true false false 0 0 none "orange" none none

def courtyard : Piece :=
  mkP 17 "Courtyard" false true true true 0 1 (some "edge") "green"
    (some ⟨"spawn", 0, "dig_site"⟩) none

def darkroom : Piece :=
  mkP 18 "Darkroom" false true true true 0 1 none "red" none none

def den : Piece :=
  mkP 19 "Den" false true true true 0 1 none "blue" none (some ⟨"gem_always", 0, ""⟩)

def diningRoom : Piece :=
  mkP 20 "Dining Room" false true true true 1 2 none "blue" (some ⟨"food", 6, ""⟩) none

def draftingStudio : Piece :=
  mkP 21 "Drafting Studio" true true false false 1 2 none "blue"
    (some ⟨"allow_new_floorplan", 0, ""⟩) none

def drawingRoom : Piece :=
  mkP 22 "Drawing Room" false true true true 1 2 none "blue" none none

def eastWingHall : Piece :=
  mkP 23 "East Wing Hall" false true true true 0 1 none "orange" none none

def foyer : Piece :=
  mkP 24 "Foyer" true true false false 0 1 none "orange" none none

def freezer : Piece :=
  mkP 25 "Freezer" false true false false 1 2 none "blue" (some ⟨"freeze_accounts", 0, ""⟩) none

def furnace : Piece :=
  mkP 26 "Furnace" false true false false 0 2 none "red" none (some ⟨"inc_fire_weight", 0, ""⟩)

def gallery : Piece :=
  mkP 27 "Gallery" true true false false 0 1 none "blue" none none

def garage : Piece :=
  mkP 28 "Garage" false true false false 0 1 (some "edge") "blue"
    (some ⟨"detecteur_de_metaux", 3, ""⟩) none

def greatHall : Piece :=
  mkP 29 "Great Hall" true true true true 0 1 none "orange" none none

def greenhouse : Piece :=
  mkP 30 "Greenhouse" false true false false 1 2 (some "edge") "green" none
    (some ⟨"inc_green_weight", 0, ""⟩)

def guestBedroom : Piece :=
  mkP 31 "Guest Bedroom" false true false false 0 2 none "purple" (some ⟨"food", 10, ""⟩) none

def gymnasium : Piece :=
  mkP 32 "Gymnasium" false true true true 0 1 none "red" (some ⟨"food", -2, ""⟩) none

def hallway : Piece :=
  mkP 33 "Hallway" false true true true 0 0 none "orange" none none

def ladyshipChamber : Piece :=
  mkP 34 "Her Ladyship's Chamber" false true false false 0 2 none "purple" none none

def kitchen : Piece :=
  mkP 35 "Kitchen" false true true false 1 2 (some "edge") "yellow" (some ⟨"shop", 0, ""⟩) none

def laboratory : Piece :=
  mkP 36 "Laboratory" false true true false 1 2 none "blue"
    (some ⟨"detecteur_de_metaux", 0, ""⟩) none

def laundryRoom : Piece :=
  mkP 37 "Laundry Room" false true false false 0 1 none "yellow" (some ⟨"coins", 5, ""⟩) none

def lavatory : Piece :=
  mkP 38 "Lavatory" false true false false 0 1 none "red" none none

def library : Piece :=
  mkP 39 "Library" false true true false 1 3 (some "center") "blue" none
    (some ⟨"inc_rare_weight", 0, ""⟩)

def lockerRoom : Piece :=
  mkP 40 "Locker Room" true true false false 0 1 none "blue"
    (some ⟨"kit_de_crochetage", 0, ""⟩) none

def locksmith : Piece :=
  mkP 41 "Locksmith" false true false false 1 2 (some "edge") "yellow"
    (some ⟨"shop", 0, ""⟩) none

def maidsChamber : Piece :=
  mkP 42 "Maid's Chamber" false true true false 0 2 none "red" none
    (some ⟨"dec_find_objects", 0, ""⟩)

def mailRoom : Piece :=
  mkP 43 "Mail Room" false true false false 1 2 none "blue" (some ⟨"mail_package", 0, ""⟩) none

def masterBedroom : Piece :=
  mkP 44 "Master Bedroom" false true false false 2 3 none "purple"
    (some ⟨"steps_per_room", 0, ""⟩) none

def morningRoom : Piece :=
  mkP 45 "Morning Room" false true true false 1 2 (some "edge") "green"
    (some ⟨"set_gems_next_day", 2, ""⟩) none

def giftShop : Piece :=
  mkP 46 "Mount Holly Gift Shop" false true true true 1 2 (some "edge") "yellow"
    (some ⟨"shop", 0, ""⟩) none

def musicRoom : Piece :=
  mkP 47 "Music Room" false true true false 1 2 none "blue"
    (some ⟨"gain_keys_mixed", 0, ""⟩) none

def nook : Piece :=
  mkP 48 "Nook" false true true false 0 1 none "blue" (some ⟨"gain_keys", 1, ""⟩) none

def nursery : Piece :=
  mkP 49 "Nursery" false true false false 1 2 none "purple"
    (some ⟨"bonus_for_bedrooms", 0, ""⟩) none

def observatory : Piece :=
  mkP 50 "Observatory" false true true false 1 3 (some "center") "blue" none
    (some ⟨"observatory_bonus", 0, ""⟩)

def office : Piece :=
  mkP 51 "Office" false true true false 1 1 none "blue" (some ⟨"spread_coins", 0, ""⟩) none

def pantry : Piece :=
  mkP 52 "Pantry" false true true false 0 1 none "blue" (some ⟨"coins", 4, ""⟩) none

def parlor : Piece :=
  mkP 53 "Parlor" false true true false 0 1 none "blue"
    (some ⟨"kit_de_crochetage", 0, ""⟩) none

def passageway : Piece :=
  mkP 54 "Passageway" true true true true 0 0 none "orange" none none

def patio : Piece :=
  mkP 55 "Patio" false true true false 1 2 (some "edge") "green"
    (some ⟨"spread_gems_green", 0, ""⟩) none

def pumpRoom : Piece :=
  mkP 56 "Pump Room" false true true false 1 2 none "blue" (some ⟨"water_control", 0, ""⟩) none

def room8 : Piece :=
  mkP 57 "Room 8" false true true false 0 1 none "blue" none none

def room46 : Piece :=
  mkP 58 "Room 46" false false false false 0 0 (some "center") "blue" none none

def rotunda : Piece :=
  mkP 59 "Rotunda" false true true false 2 3 (some "center") "blue"
    (some ⟨"rotate_house", 0, ""⟩) none

def rumpusRoom : Piece :=
  mkP 60 "Rumpus Room" true true false false 0 1 none "blue" (some ⟨"coins", 8, ""⟩) none

def sauna : Piece :=
  mkP 61 "Sauna" false true false false 1 2 none "blue"
    (some ⟨"steps_next_day", 20, ""⟩) none

def secretGarden : Piece :=
  mkP 62 "Secret Garden" false true true true 1 2 (some "edge") "green"
    (some ⟨"spread_fruit", 0, ""⟩) none

def secretPassage : Piece :=
  mkP 63 "Secret Passage" false true false false 0 1 none "orange"
    (some ⟨"teleport_color_choice", 0, ""⟩) none

def security : Piece :=
  mkP 64 "Security" false true true true 1 2 none "blue"
    (some ⟨"view_inventory", 0, ""⟩) none

def servantsQuarters : Piece :=
  mkP 65 "Servant's Quarters" false true false false 0 2 none "purple"
    (some ⟨"gain_keys_per_bedroom", 0, ""⟩) none

def showroom : Piece :=
  mkP 66 "Showroom" true true false false 1 2 (some "edge") "yellow"
    (some ⟨"shop", 0, ""⟩) none

def spareRoom : Piece :=
  mkP 67 "Spare Room" true true false false 0 1 none "blue"
    (some ⟨"kit_de_crochetage", 0, ""⟩) none

def storeroom : Piece :=
  mkP 68 "Storeroom" false true false false 0 1 none "blue" (some ⟨"pelle", 0, ""⟩) none

def study : Piece :=
  mkP 69 "Study" false true false false 1 3 (some "center") "blue" none
    (some ⟨"study_redraw_bonus", 0, ""⟩)

/-- The `ROOM_CATALOG` list, in source order. -/
def ROOM_CATALOG : List Piece :=
  [entranceHall, attic, ballroom, bedroom, billiardRoom, boilerRoom, bookshop,
   bunkRoom, boudoir, chamberOfMirrors, chapel, cloister, closet, coatCheck,
   commissary, conferenceRoom, corridor, courtyard, darkroom, den, diningRoom,
   draftingStudio, drawingRoom, eastWingHall, foyer, freezer, furnace, gallery,
   garage, greatHall, greenhouse, guestBedroom, gymnasium, hallway,
   ladyshipChamber, kitchen, laboratory, laundryRoom, lavatory, library,
   lockerRoom, locksmith, maidsChamber, mailRoom, masterBedroom, morningRoom,
   giftShop, musicRoom, nook, nursery, observatory, office, pantry, parlor,
   passageway, patio, pumpRoom, room8, room46, rotunda, rumpusRoom, sauna,
   secretGarden, secretPassage, security, servantsQuarters, showroom,
   spareRoom, storeroom, study]

/-- Deck multiplicity of a catalog entry: rarity ≥ 3 gives 1 copy, rarity 2
gives 3, rarity 1 gives 5, rarity 0 gives 7. -/
def deckMult (p : Piece) : Nat :=
  if 3 ≤ p.degre_rarete then 1
  else if p.degre_rarete = 2 then 3
  else if p.degre_rarete = 1 then 5
  else 7

/-- `INITIAL_DECK`: every catalog entry except the Entrance Hall, repeated
`deckMult` times; the repeated entries are the same object (same `pid`). -/
def INITIAL_DECK : List Piece :=
  ROOM_CATALOG.foldr
    (fun p acc => if p.nom = "Entrance Hall" then acc else List.replicate (deckMult p) p ++ acc)
    []

/-- The random draws one player command may consume, as an explicit oracle.
`wr i` is the value of `random.random()` at the i-th weighted-sampler step
(a rational in `[0, 1)`), `wu i` the index drawn by the sampler's degenerate
uniform fallback, `zeroPick` the index drawn by `random.choice` over the
zero-cost rooms, `lockDraw` the `random.random()` of the door-lock policy,
`findDraw` and `findPick` the draws of the incidental find, and `injPick`
the indices drawn by `random.choices` when a tile effect injects copies back
into the deck. -/
structure Rng where
  wr : Nat → ℚ
  wu : Nat → Nat
  zeroPick : Nat
  lockDraw : ℚ
  findDraw : ℚ
  findPick : Nat
  injPick : Nat → Nat

/-- A fixed zero oracle, used for concrete evaluations. -/
def rng0 : Rng :=
  ⟨fun _ => 0, fun _ => 0, 0, 0, 0, 0, fun _ => 0⟩

/-- The cumulative-weight scan of `weighted_sample_no_replacement`: walk the
list accumulating weights and return the first element whose cumulative
weight reaches `r` (the loop `for i,w in enumerate(weights): cum += w;
if r <= cum: choice = available[i]; break`). -/
def pickWeighted (r : ℚ) : ℚ → List Piece → Option Piece
  | _, [] => none
  | cum, x :: xs =>
    if r ≤ cum + proba_tirage x then some x else pickWeighted r (cum + proba_tirage x) xs

/-- One iteration of the sampler's loop: the element of `available` chosen at
step `step` — `random.choice(available)` when the total weight is zero, else
the cumulative scan over `r = random.random() * tot`. -/
def sampleStep (rng : Rng) (step : Nat) (available : List Piece) : Piece :=
  let tot := (available.map proba_tirage).sum
  if tot = 0 then available.getD (rng.wu step % available.length) default
  else (pickWeighted (rng.wr step * tot) 0 available).getD default

/-- The sampler's loop: `n` iterations, each appending the chosen element and
removing it (`available.remove(choice)` removes the first occurrence equal to
the choice, which for `Piece` objects is equality by identity). -/
def wsnrGo (rng : Rng) : Nat → Nat → List Piece → List Piece
  | 0, _, _ => []
  | n + 1, step, available =>
    if available.isEmpty then []
    else
      let choice := sampleStep rng step available
      choice :: wsnrGo rng n (step + 1) (available.erase choice)

/-- `weighted_sample_no_replacement(pool, k)`: `min k (len pool)` draws
without replacement from a working copy of the pool (the source copies the
input list twice and never writes to the original). -/
def weighted_sample_no_replacement (rng : Rng) (pool : List Piece) (k : Nat) : List Piece :=
  wsnrGo rng (min k pool.length) 0 pool

/-- Grid size `ROWS` of the source. -/
def ROWS : Int := 9

/-- Grid size `COLS` of the source. -/
def COLS : Int := 5

/-- `Game.in_bounds`. -/
def in_bounds (r c : Int) : Bool :=
  decide (0 ≤ r) && decide (r < ROWS) && decide (0 ≤ c) && decide (c < COLS)

/-- The consumable counters and permanent flags (the `Inventory` class).
Python dicts are modelled as total functions with default 0 / false, which
matches every access in the source (`get(name, 0)` reads and
creating-on-missing writes). -/
structure Inventory where
  conso : String → Int
  perm : String → Bool

/-- `Inventory.ajouter_conso`: unconditionally add `quantitee` to the counter
(creating it at `quantitee` when missing, which the total-function model
renders as `0 + quantitee`). -/
def ajouter_conso (inv : Inventory) (nom_objet : String) (quantitee : Int) : Inventory :=
  { inv with conso := fun m => if m = nom_objet then inv.conso nom_objet + quantitee else inv.conso m }

/-- `Inventory.retirer`: subtract `quantitee` and return `true` when the
stock (`get(nom_objet, 0)`) is at least `quantitee`, else return `false` and
leave the inventory unchanged. -/
def retirer (inv : Inventory) (nom_objet : String) (quantitee : Int) : Inventory × Bool :=
  if quantitee ≤ inv.conso nom_objet then
    ({ inv with conso := fun m => if m = nom_objet then inv.conso nom_objet - quantitee else inv.conso m },
     true)
  else (inv, false)

/-- `Inventory.ajouter_perm`: set a permanent flag to true. -/
def ajouter_perm (inv : Inventory) (nom_objet : String) : Inventory :=
  { inv with perm := fun m => if m = nom_objet then true else inv.perm m }

/-- The starting inventory of `Inventory.__init__`. -/
def initInventory : Inventory :=
  { conso := fun m =>
      if m = "pas" then 70
      else if m = "pieces" then 0
      else if m = "gemmes" then 2
      else if m = "cles" then 0
      else if m = "des" then 0
      else 0,
    perm := fun _ => false }

/-- An interactable feature on a cell (the `Chest` / `Casier` / `DigSite`
classes), reduced to its kind discriminant and `opened` flag. -/
structure Interactable where
  kind : String
  opened : Bool
deriving DecidableEq, Repr

/-- The `label()` of each interactable kind. -/
def interLabel (k : String) : String :=
  if k = "chest" then "a chest" else if k = "casier" then "a locker" else "a dig site"

/-- A board cell (the `Cell` class). -/
structure Cell where
  piece : Option Piece := none
  rotation : Nat := 0
  doors : Dir → Option Nat := fun _ => none
  interactable : Option Interactable := none

/-- A cell with no tile, no doors and no interactable. -/
def emptyCell : Cell := {}

/-- The mutable state of the `Game` class (rendering-only fields dropped). -/
structure GameState where
  deck : List Piece
  grid : Int → Int → Cell
  player_r : Int
  player_c : Int
  inventory : Inventory
  turn_msg : String
  selection_mode : Bool
  candidates : List Piece
  selection_pos : Int
  target_cell : Option (Int × Int)
  running : Bool
  in_shop : Bool

/-- Write one cell of the grid. -/
def gridSet (grid : Int → Int → Cell) (r c : Int) (f : Cell → Cell) : Int → Int → Cell :=
  fun x y => if x = r ∧ y = c then f (grid r c) else grid x y

/-- `Game.cell_ports`: the rotated ports of the cell's tile, all-false when
the cell is empty. -/
def cell_ports (g : GameState) (r c : Int) : Ports :=
  match (g.grid r c).piece with
  | none => ⟨false, false, false, false⟩
  | some p => rotated_ports p.ports (g.grid r c).rotation

/-- `Game.can_place_with_ports`: a given (already rotated) port map is legal
at `(tr, tc)` when entered from `from_dir` — it must port back toward the
arrival cell, no port may leave the board, and every port toward an occupied
neighbor must be matched by that neighbor's port (and conversely). -/
def can_place_with_ports (g : GameState) (ports : Ports) (tr tc : Int) (from_dir : Dir) : Bool :=
  pget ports (OPP from_dir) &&
  dirList.all (fun d => !pget ports d || in_bounds (tr + dRow d) (tc + dCol d)) &&
  dirList.all (fun d =>
    let nr := tr + dRow d
    let nc := tc + dCol d
    if in_bounds nr nc then
      match (g.grid nr nc).piece with
      | some _ => pget ports d == pget (cell_ports g nr nc) (OPP d)
      | none => true
    else true)

/-- `Game.can_place_piece`: some rotation of the tile is legal here. -/
def can_place_piece (g : GameState) (piece : Piece) (tr tc : Int) (from_dir : Dir) : Bool :=
  (List.range 4).any (fun rot => can_place_with_ports g (rotated_ports piece.ports rot) tr tc from_dir)

/-- `Game.fits_board_and_direction`: the zone constraint (`edge` / `corner` /
`center`) must match the position class of `(tr, tc)`, and then some rotation
must be placeable. -/
def fits_board_and_direction (g : GameState) (piece : Piece) (tr tc : Int) (direction : Dir) : Bool :=
  let on_edge := tr = 0 ∨ tr = ROWS - 1 ∨ tc = 0 ∨ tc = COLS - 1
  let in_corner := (tr = 0 ∨ tr = ROWS - 1) ∧ (tc = 0 ∨ tc = COLS - 1)
  let in_center := 0 < tr ∧ tr < ROWS - 1 ∧ 0 < tc ∧ tc < COLS - 1
  if piece.cond_deplac = some "edge" ∧ ¬ on_edge then false
  else if piece.cond_deplac = some "corner" ∧ ¬ in_corner then false
  else if piece.cond_deplac = some "center" ∧ ¬ in_center then false
  else can_place_piece g piece tr tc direction

/-- `Game.generate_candidates`: filter the deck down to the legal pool,
apply the gem-affordability filter with fallback, force one zero-cost choice
when one exists, and fill up to 3 candidates with the weighted sampler. -/
def generate_candidates (rng : Rng) (g : GameState) (tr tc : Int) (direction : Dir) : List Piece :=
  let legal_pool := g.deck.filter (fun p => fits_board_and_direction g p tr tc direction)
  if legal_pool.isEmpty then []
  else
    let gems := g.inventory.conso "gemmes"
    let pool0 := legal_pool.filter (fun p => p.cout == 0 || decide ((p.cout : Int) ≤ gems))
    let pool := if pool0.isEmpty then legal_pool else pool0
    let zero_cost_rooms := pool.filter (fun p => p.cout == 0)
    let candidates :=
      if zero_cost_rooms.isEmpty then weighted_sample_no_replacement rng pool 3
      else
        let free_choice := zero_cost_rooms.getD (rng.zeroPick % zero_cost_rooms.length) default
        let remaining_pool := pool.filter (fun p => p != free_choice)
        free_choice :: weighted_sample_no_replacement rng remaining_pool 2
    candidates.take 3

/-- `Game.door_lock_for_target_row`: deterministic 0 on the bottom row and 2
on the top row, else a categorical draw with `p2 = 0.1 + 0.7 t`,
`p0 = 0.7 - 0.6 t`, `p1 = max 0 (1 - p0 - p2)` for
`t = (ROWS - 1 - target_row) / (ROWS - 1)`. -/
def door_lock_for_target_row (rand : ℚ) (target_row : Int) : Nat :=
  if ROWS ≤ 1 then 0
  else
    let t : ℚ := ((ROWS : ℚ) - 1 - (target_row : ℚ)) / ((ROWS : ℚ) - 1)
    if target_row = ROWS - 1 then 0
    else if target_row = 0 then 2
    else
      let p2 := 1 / 10 + 7 / 10 * t
      let p0 := 7 / 10 - 6 / 10 * t
      let p1 := max 0 (1 - p0 - p2)
      if rand < p0 then 0
      else if rand < p0 + p1 then 1
      else 2

/-- The reverse lookup `dir_map = {(-1,0): 'up', (1,0): 'down', (0,-1):
'left', (0,1): 'right'}` applied to a row/column delta. -/
def dirOfDelta (dr dc : Int) : Option Dir :=
  if dr = -1 ∧ dc = 0 then some .up
  else if dr = 1 ∧ dc = 0 then some .down
  else if dr = 0 ∧ dc = -1 then some .left
  else if dr = 0 ∧ dc = 1 then some .right
  else none

/-- `Game.neighbor_target`: the cell adjacent to the player in a direction. -/
def neighbor_target (g : GameState) (direction : Dir) : Int × Int :=
  (g.player_r + dRow direction, g.player_c + dCol direction)

/-- Write the interactable produced by a `spawn` effect and emit its message
(the non-early-return branch of the `spawn` case of `Game.on_enter`).  An
unknown spawn kind leaves the cell's interactable as it was; the message is
set whenever the cell then holds an interactable. -/
def spawnPlace (g : GameState) (tr tc : Int) (e : Eff) : GameState × Bool :=
  let newInter : Option Interactable :=
    if e.spawnKind = "chest" then some ⟨"chest", false⟩
    else if e.spawnKind = "casier" then some ⟨"casier", false⟩
    else if e.spawnKind = "dig_site" then some ⟨"dig_site", false⟩
    else (g.grid tr tc).interactable
  let g1 := { g with grid := gridSet g.grid tr tc (fun c => { c with interactable := newInter }) }
  match newInter with
  | some it =>
    ({ g1 with turn_msg := "You found " ++ interLabel it.kind ++ "! Press E to interact." }, true)
  | none => (g1, true)

/-- The effect dispatch of `Game.on_enter` (second component: whether
control reaches the incidental-find roll — only the `spawn` branch that finds
an unopened interactable returns early). -/
def applyEnterEffect (g : GameState) (p : Piece) (tr tc : Int) : GameState × Bool :=
  match p.onEnter with
  | none => ({ g with turn_msg := "Entered " ++ p.nom ++ "." }, true)
  | some e =>
    if e.typ = "coins" then
      ({ g with inventory := ajouter_conso g.inventory "pieces" e.amount,
                turn_msg := "Found " ++ toString e.amount ++ " coins!" }, true)
    else if e.typ = "food" then
      ({ g with inventory := ajouter_conso g.inventory "pas" e.amount,
                turn_msg := "Ate food and regains " ++ toString e.amount ++ " steps!" }, true)
    else if e.typ = "goal" then
      ({ g with turn_msg := "You reached the Antechamber! You win!", running := false }, true)
    else if e.typ = "start" then
      ({ g with turn_msg := "Back at the Entrance." }, true)
    else if e.typ = "spawn" then
      match (g.grid tr tc).interactable with
      | some it => if !it.opened then (g, false) else spawnPlace g tr tc e
      | none => spawnPlace g tr tc e
    else if e.typ = "detecteur_de_metaux" then
      ({ g with inventory := ajouter_perm g.inventory "detecteur_de_metaux",
                turn_msg := "You found a metal detector! Keys and coins will be easier to find." },
       true)
    else if e.typ = "kit_de_crochetage" then
      if !g.inventory.perm "kit_de_crochetage" then
        ({ g with inventory := ajouter_perm g.inventory "kit_de_crochetage",
                  turn_msg := "You found a kit de crochetage! Level-1 doors can be opened for free." },
         true)
      else ({ g with turn_msg := "You already have a kit de crochetage." }, true)
    else if e.typ = "pelle" then
      if !g.inventory.perm "pelle" then
        ({ g with inventory := ajouter_perm g.inventory "pelle",
                  turn_msg := "You found a shovel! You can now dig at dig sites." }, true)
      else ({ g with turn_msg := "You already have a shovel." }, true)
    else if e.typ = "marteau" then
      if !g.inventory.perm "marteau" then
        ({ g with inventory := ajouter_perm g.inventory "marteau",
                  turn_msg := "You found a hammer! You can now break chests." }, true)
      else ({ g with turn_msg := "You already have a hammer." }, true)
    else if e.typ = "shop" then
      ({ g with turn_msg := "You entered the shop. Press E to trade.", in_shop := true }, true)
    else ({ g with turn_msg := "Entered " ++ p.nom ++ "." }, true)

/-- The incidental-find roll at the end of `Game.on_enter`: base probability
0.08, +0.05 with the rabbit's foot; the found resource is a uniform choice,
with keys and coins double-weighted when the metal detector is held. -/
def incidentalFind (rng : Rng) (g : GameState) : GameState :=
  let lapin_bonus : ℚ := if g.inventory.perm "patte_de_lapin" then 1 / 20 else 0
  if rng.findDraw < 2 / 25 + lapin_bonus then
    let pool : List String :=
      if g.inventory.perm "detecteur_de_metaux" then
        ["gemmes", "cles", "cles", "pieces", "pieces", "des", "pas"]
      else ["gemmes", "cles", "des", "pieces", "pas"]
    let found := pool.getD (rng.findPick % pool.length) ""
    if found = "gemmes" then
      { g with inventory := ajouter_conso g.inventory "gemmes" 1,
               turn_msg := g.turn_msg ++ " Found 1 gem." }
    else if found = "cles" then
      { g with inventory := ajouter_conso g.inventory "cles" 1,
               turn_msg := g.turn_msg ++ " Found 1 key." }
    else if found = "des" then
      { g with inventory := ajouter_conso g.inventory "des" 1,
               turn_msg := g.turn_msg ++ " Found 1 die." }
    else if found = "pieces" then
      { g with inventory := ajouter_conso g.inventory "pieces" 5,
               turn_msg := g.turn_msg ++ " Found some coins." }
    else if found = "pas" then
      { g with inventory := ajouter_conso g.inventory "pas" 3,
               turn_msg := g.turn_msg ++ " Found 3 steps." }
    else g
  else g

/-- `Game.on_enter` on the cell at `(tr, tc)`: nothing on an empty cell; else
reset `in_shop`, run the effect dispatch, and (unless the `spawn` branch
returned early) the incidental-find roll. -/
def on_enter (rng : Rng) (g : GameState) (tr tc : Int) : GameState :=
  match (g.grid tr tc).piece with
  | none => g
  | some p =>
    let gp := applyEnterEffect { g with in_shop := false } p tr tc
    if gp.2 then incidentalFind rng gp.1 else gp.1

/-- Write one door of a cell. -/
def setDoor (c : Cell) (d : Dir) (lv : Nat) : Cell :=
  { c with doors := fun e => if e = d then some lv else c.doors e }

/-- Open the door between the player's cell and `(tr, tc)` in both
directions (both sides set to lock level 0). -/
def openDoorPair (g : GameState) (direction : Dir) (tr tc : Int) : GameState :=
  let g1 := { g with grid := gridSet g.grid g.player_r g.player_c (fun c => setDoor c direction 0) }
  { g1 with grid := gridSet g1.grid tr tc (fun c => setDoor c (OPP direction) 0) }

/-- The occupied-cell branch of `Game.open_door_or_move`: try to open the
door (kit for level 1, else one key; rejected without mutation when neither
is available), then consume one step and enter — rejected after the door
handling when no step remains. -/
def moveIntoOccupied (rng : Rng) (g : GameState) (direction : Dir) (tr tc : Int) : GameState :=
  let lock := ((g.grid tr tc).doors (OPP direction)).getD 0
  let afterDoor : Option GameState :=
    if 0 < lock then
      if g.inventory.perm "kit_de_crochetage" ∧ lock = 1 then
        some (openDoorPair { g with turn_msg := "Used kit to open a level 1 door." } direction tr tc)
      else if 0 < g.inventory.conso "cles" then
        some (openDoorPair
          { g with inventory := (retirer g.inventory "cles" 1).1,
                   turn_msg := "Used a key to open the door." } direction tr tc)
      else none
    else some g
  match afterDoor with
  | none => { g with turn_msg := "Door is locked and you have no key/kit." }
  | some g1 =>
    if g1.inventory.conso "pas" ≤ 0 then { g1 with turn_msg := "No steps left! You can't move." }
    else
      let g2 := { g1 with inventory := (retirer g1.inventory "pas" 1).1,
                          player_r := tr, player_c := tc, in_shop := false }
      on_enter rng g2 tr tc

/-- The empty-cell branch of `Game.open_door_or_move`: recompute the real
direction from the delta, generate candidates, and either reject the move or
enter selection mode. -/
def selectionBranch (rng : Rng) (g : GameState) (direction : Dir) (tr tc : Int) : GameState :=
  let real_dir := (dirOfDelta (tr - g.player_r) (tc - g.player_c)).getD direction
  let cands := generate_candidates rng g tr tc real_dir
  if cands.isEmpty then { g with turn_msg := "No legal rooms can be placed here." }
  else
    { g with selection_mode := true, candidates := cands, selection_pos := 0,
             target_cell := some (tr, tc),
             turn_msg := "Choose a room (ENTER) or press R to redraw (spend a die)." }

/-- `Game.open_door_or_move`. -/
def open_door_or_move (rng : Rng) (g : GameState) (direction : Dir) : GameState :=
  let tr := g.player_r + dRow direction
  let tc := g.player_c + dCol direction
  if !in_bounds tr tc then { g with turn_msg := "A wall. Can't go there." }
  else
    match (g.grid tr tc).piece with
    | some _ => moveIntoOccupied rng g direction tr tc
    | none => selectionBranch rng g direction tr tc

/-- The rotation search of `Game.confirm_selection`: the first rotation in
0..3 whose rotated ports are placeable. -/
def findRotation (g : GameState) (choice : Piece) (tr tc : Int) (direction : Dir) : Option Nat :=
  (List.range 4).find? (fun rot => can_place_with_ports g (rotated_ports choice.ports rot) tr tc direction)

/-- Commit a tile with its rotation into the cell at `(tr, tc)` (step 6 of
`Game.confirm_selection`). -/
def commitPiece (g : GameState) (tr tc : Int) (choice : Piece) (rot : Nat) : GameState :=
  { g with grid := gridSet g.grid tr tc (fun c => { c with piece := some choice, rotation := rot }) }

/-- Set the freshly computed lock level on both sides of the new connection
(step 7 of `Game.confirm_selection`). -/
def setDoorPair (g : GameState) (direction : Dir) (tr tc : Int) (lv : Nat) : GameState :=
  let g1 := { g with grid := gridSet g.grid g.player_r g.player_c (fun c => setDoor c direction lv) }
  { g1 with grid := gridSet g1.grid tr tc (fun c => setDoor c (OPP direction) lv) }

/-- The `on_draw` dispatch of `Game.confirm_selection` (step 9): an unknown
type falls through every branch and changes nothing, and a tile with no
`on_draw` entry produces the "Placed ..." message instead. -/
def applyOnDraw (rng : Rng) (g : GameState) (choice : Piece) (tr : Int) (lock_level : Nat) :
    GameState :=
  match choice.onDraw with
  | some od =>
    if od.typ = "gem_always" then
      { g with inventory := ajouter_conso g.inventory "gemmes" 1,
               turn_msg := "You drew a room and found a gem!" }
    else if od.typ = "inc_green_weight" then
      let greens := ROOM_CATALOG.filter (fun p => p.couleur == "green")
      if greens.isEmpty then g
      else
        let extra := [greens.getD (rng.injPick 0 % greens.length) default,
                      greens.getD (rng.injPick 1 % greens.length) default]
        { g with deck := g.deck ++ extra,
                 turn_msg := "This veranda increases green rooms in the deck." }
    else if od.typ = "inc_find_objects" then
      { g with inventory := ajouter_perm g.inventory "patte_de_lapin",
               turn_msg := "You found something increasing find chances (patte_de_lapin)." }
    else if od.typ = "inc_fire_weight" then
      let fires := ROOM_CATALOG.filter (fun p => p.nom == "Furnace")
      if fires.isEmpty then g
      else
        let extra := [fires.getD (rng.injPick 0 % fires.length) default,
                      fires.getD (rng.injPick 1 % fires.length) default]
        { g with deck := g.deck ++ extra,
                 turn_msg := "Furnace makes furnace-like rooms more common in the deck." }
    else g
  | none =>
    { g with turn_msg := "Placed " ++ choice.nom ++ " at row " ++ toString tr ++
               ", lock=" ++ toString lock_level }

/-- `Game.confirm_selection`: guard checks, rotation search, gem payment,
commit, door-lock assignment, deck removal, `on_draw` effect, selection
reset, and the chained move into the new room. -/
def confirm_selection (rng : Rng) (g : GameState) : GameState :=
  if !g.selection_mode then g
  else
    match g.target_cell with
    | none => g
    | some (tr, tc) =>
      let index := g.selection_pos
      if index < 0 ∨ (g.candidates.length : Int) ≤ index then g
      else
        let choice := g.candidates.getD index.toNat default
        let dirn := dirOfDelta (tr - g.player_r) (tc - g.player_c)
        let chosen_rot :=
          match dirn with
          | some d => findRotation g choice tr tc d
          | none => none
        match chosen_rot with
        | none => { g with turn_msg := "No valid orientation for that room here." }
        | some rot =>
          if 0 < choice.cout ∧ g.inventory.conso "gemmes" < (choice.cout : Int) then
            { g with turn_msg := "Not enough gems to choose that room." }
          else
            let g1 :=
              if 0 < choice.cout then
                { g with inventory := (retirer g.inventory "gemmes" (choice.cout : Int)).1 }
              else g
            let g2 := commitPiece g1 tr tc choice rot
            let lock_level := door_lock_for_target_row rng.lockDraw tr
            let g3 :=
              match dirn with
              | some d => setDoorPair g2 d tr tc lock_level
              | none => g2
            let g4 := { g3 with deck := g3.deck.erase choice }
            let g5 := applyOnDraw rng g4 choice tr lock_level
            let g6 := { g5 with selection_mode := false, candidates := [],
                                selection_pos := 0, target_cell := none }
            match dirn with
            | some d => open_door_or_move rng g6 d
            | none => g6

/-- The body of the direction loop of `Game.has_legal_moves`: the move in
direction `d` is legal — the occupied neighbor is openable, or the empty
neighbor admits some placeable (the source pre-filters only the `edge` zone
constraint here) and affordable deck tile. -/
def legalTowards (g : GameState) (d : Dir) : Bool :=
  let gems := g.inventory.conso "gemmes"
  let keys := g.inventory.conso "cles"
  let has_kit := g.inventory.perm "kit_de_crochetage"
  let tr := g.player_r + dRow d
  let tc := g.player_c + dCol d
  if !in_bounds tr tc then false
  else
    match (g.grid tr tc).piece with
    | some _ =>
      let lock := ((g.grid tr tc).doors (OPP d)).getD 0
      lock == 0 || (lock == 1 && (has_kit || decide (0 < keys))) ||
        (lock == 2 && decide (0 < keys))
    | none =>
      g.deck.any (fun p =>
        !(p.cond_deplac == some "edge" &&
          !(tr == 0 || tr == ROWS - 1 || tc == 0 || tc == COLS - 1)) &&
        can_place_piece g p tr tc d &&
        (p.cout == 0 || decide ((p.cout : Int) ≤ gems)))

/-- `Game.has_legal_moves`: some direction admits a legal move. -/
def has_legal_moves (g : GameState) : Bool :=
  dirList.any (legalTowards g)

/-- Apply a sequence of `retirer` calls (name, quantity) in order. -/
def retirerSeq (inv : Inventory) : List (String × Int) → Inventory
  | [] => inv
  | (n, q) :: rest => retirerSeq (retirer inv n q).1 rest

/-- All consumable counters are non-negative. -/
def consoNonneg (inv : Inventory) : Prop :=
  ∀ n, 0 ≤ inv.conso n

/-- C9: `Inventory.retirer` subtracts exactly when the available stock is at
least the requested quantity (returning `true`), otherwise returns `false`
and leaves the inventory unchanged; consequently any sequence of `retirer`
calls keeps all counters non-negative. -/
theorem C9_retirer_guard_and_nonneg :
    (∀ inv n q, (retirer inv n q).2 = true ↔ q ≤ inv.conso n) ∧
    (∀ inv n q, q ≤ inv.conso n → (retirer inv n q).1.conso n = inv.conso n - q) ∧
    (∀ inv n q m, m ≠ n → (retirer inv n q).1.conso m = inv.conso m) ∧
    (∀ inv n q, ¬ q ≤ inv.conso n → (retirer inv n q).1 = inv) ∧
    (∀ inv calls, consoNonneg inv → consoNonneg (retirerSeq inv calls)) := by
  refine ⟨?_, ?_, ?_, ?_, ?_⟩
  · intro inv n q
    unfold retirer
    split <;> simp_all
  · intro inv n q h
    simp [retirer, h]
  · intro inv n q m hm
    unfold retirer
    split <;> simp [hm]
  · intro inv n q h
    simp [retirer, h]
  · intro inv calls
    induction calls generalizing inv with
    | nil => intro h; exact h
    | cons c rest ih =>
      intro h
      obtain ⟨n, q⟩ := c
      refine ih (retirer inv n q).1 ?_
      intro m
      unfold retirer
      split
      · rename_i hle
        by_cases hm : m = n
        · subst hm; simp; linarith
        · simp [hm]; exact h m
      · exact h m

/-- C9 witness: a concrete run of the guard and of a call sequence. -/
theorem C9_witness :
    consoNonneg (retirerSeq initInventory [("pas", 50), ("gemmes", 5), ("cles", 1)]) :=
  C9_retirer_guard_and_nonneg.2.2.2.2 initInventory _
    (by
      intro n
      simp only [initInventory]
      split_ifs <;> norm_num)

/-- C10: `ajouter_conso` adds unconditionally (no sign or floor check), the
Gymnasium tile's on-enter effect is `food` with amount −2, and resolving that
effect drops the step counter by 2 — below zero whenever the player entered
with fewer than 2 steps. -/
theorem C10_food_goes_negative :
    (∀ inv n q, (ajouter_conso inv n q).conso n = inv.conso n + q) ∧
    gymnasium.onEnter = some ⟨"food", -2, ""⟩ ∧
    (∀ g tr tc, (applyEnterEffect g gymnasium tr tc).1.inventory.conso "pas" =
        g.inventory.conso "pas" - 2) ∧
    (∀ g tr tc, g.inventory.conso "pas" < 2 →
        (applyEnterEffect g gymnasium tr tc).1.inventory.conso "pas" < 0) := by
  have hadd : ∀ inv n q, (ajouter_conso inv n q).conso n = inv.conso n + q := by
    intro inv n q
    simp [ajouter_conso]
  have heff : ∀ g tr tc, (applyEnterEffect g gymnasium tr tc).1.inventory.conso "pas" =
      g.inventory.conso "pas" - 2 := by
    intro g tr tc
    show (ajouter_conso g.inventory "pas" (-2)).conso "pas" = _
    rw [hadd]
    ring
  refine ⟨hadd, rfl, heff, ?_⟩
  intro g tr tc h
  rw [heff]
  linarith

/-- C10 witness: entering the Gymnasium with 1 step leaves −1 steps. -/
theorem C10_witness :
    (applyEnterEffect
        { deck := [], grid := fun _ _ => emptyCell, player_r := 0, player_c := 0,
          inventory := { conso := fun n => if n = "pas" then 1 else 0, perm := fun _ => false },
          turn_msg := "", selection_mode := false, candidates := [], selection_pos := 0,
          target_cell := none, running := true, in_shop := false }
        gymnasium 0 0).1.inventory.conso "pas" < 0 :=
  C10_food_goes_negative.2.2.2 _ 0 0 (by norm_num)

/-- C8: the Attic's on-enter descriptor has the unknown type `attic_loot`;
the catalog nevertheless loads it without any failure, and the on-enter
resolver silently falls into its generic fallback branch (message only, no
state change, no error) instead of failing loudly. -/
theorem C8_unknown_effect_silently_ignored :
    attic ∈ ROOM_CATALOG ∧
    attic.onEnter = some ⟨"attic_loot", 0, ""⟩ ∧
    ("Entered " ++ attic.nom ++ "." : String) = "Entered Attic." ∧
    ∀ g tr tc,
      applyEnterEffect g attic tr tc = ({ g with turn_msg := "Entered " ++ attic.nom ++ "." }, true) := by
  refine ⟨by decide, rfl, by decide, ?_⟩
  intro g tr tc
  rfl

/-- The draw weight of every tile is strictly positive. -/
theorem proba_tirage_pos (p : Piece) : 0 < proba_tirage p := by
  unfold proba_tirage
  positivity

/-- The total weight of a nonempty pool is strictly positive. -/
theorem sum_proba_pos (l : List Piece) (h : l ≠ []) : 0 < (l.map proba_tirage).sum := by
  cases l with
  | nil => exact absurd rfl h
  | cons x xs =>
    have hx := proba_tirage_pos x
    have hxs : 0 ≤ (xs.map proba_tirage).sum := by
      refine List.sum_nonneg ?_
      intro q hq
      simp only [List.mem_map] at hq
      obtain ⟨p, _, rfl⟩ := hq
      exact (proba_tirage_pos p).le
    simp only [List.map_cons, List.sum_cons]
    linarith

/-- The cumulative-weight scan only returns elements of the list. -/
theorem pickWeighted_mem :
    ∀ (l : List Piece) (r cum : ℚ) (x : Piece), pickWeighted r cum l = some x → x ∈ l := by
  intro l
  induction l with
  | nil => intro r cum x h; simp [pickWeighted] at h
  | cons y ys ih =>
    intro r cum x h
    unfold pickWeighted at h
    split at h
    · cases h; exact List.mem_cons_self y ys
    · exact List.mem_cons_of_mem y (ih r _ x h)

/-- The cumulative-weight scan succeeds whenever `r` does not exceed the
total cumulative weight. -/
theorem pickWeighted_isSome :
    ∀ (l : List Piece) (r cum : ℚ), l ≠ [] → r ≤ cum + (l.map proba_tirage).sum →
      (pickWeighted r cum l).isSome = true := by
  intro l
  induction l with
  | nil => intro r cum h; exact absurd rfl h
  | cons y ys ih =>
    intro r cum _ hr
    unfold pickWeighted
    split
    · rfl
    · rename_i hgt
      have hysne : ys ≠ [] := by
        intro he
        apply hgt
        rw [he] at hr
        simpa using hr
      refine ih r (cum + proba_tirage y) hysne ?_
      simp only [List.map_cons, List.sum_cons] at hr
      linarith

/-- Each sampler step chooses an element of the available pool (for any
random value below 1, as `random.random()` always is). -/
theorem sampleStep_mem (rng : Rng) (step : Nat) (avail : List Piece)
    (h : avail ≠ []) (hr : rng.wr step < 1) : sampleStep rng step avail ∈ avail := by
  unfold sampleStep
  have htot : 0 < (avail.map proba_tirage).sum := sum_proba_pos avail h
  rw [if_neg (by linarith)]
  have hle : rng.wr step * (avail.map proba_tirage).sum ≤ 0 + (avail.map proba_tirage).sum := by
    have := mul_lt_mul_of_pos_right hr htot
    simpa using this.le
  have hsome := pickWeighted_isSome avail (rng.wr step * (avail.map proba_tirage).sum) 0 h hle
  obtain ⟨x, hx⟩ := Option.isSome_iff_exists.mp hsome
  rw [hx]
  exact pickWeighted_mem avail _ 0 x hx

/-- The sampler loop draws exactly `n` elements when `n` does not exceed the
size of the pool. -/
theorem wsnrGo_length (rng : Rng) (hr : ∀ i, rng.wr i < 1) :
    ∀ (n step : Nat) (avail : List Piece), n ≤ avail.length →
      (wsnrGo rng n step avail).length = n := by
  intro n
  induction n with
  | zero => intro step avail _; rfl
  | succ m ih =>
    intro step avail hle
    unfold wsnrGo
    have hne : avail ≠ [] := by
      intro he
      rw [he] at hle
      simp at hle
    rw [if_neg (by simpa [List.isEmpty_iff] using hne)]
    have hmem := sampleStep_mem rng step avail hne (hr step)
    have herase : (avail.erase (sampleStep rng step avail)).length = avail.length - 1 :=
      List.length_erase_of_mem hmem
    simp only [List.length_cons]
    rw [ih (step + 1) _ (by omega)]

/-- Each element occurs in the sampler's output at most as often as in the
pool: the draws are without replacement at the entry level. -/
theorem wsnrGo_count (rng : Rng) (hr : ∀ i, rng.wr i < 1) :
    ∀ (n step : Nat) (avail : List Piece) (x : Piece),
      (wsnrGo rng n step avail).count x ≤ avail.count x := by
  intro n
  induction n with
  | zero => intro step avail x; simp [wsnrGo]
  | succ m ih =>
    intro step avail x
    unfold wsnrGo
    split
    · simp
    · rename_i hne
      have hane : avail ≠ [] := by simpa [List.isEmpty_iff] using hne
      have hmem := sampleStep_mem rng step avail hane (hr step)
      have ihx := ih (step + 1) (avail.erase (sampleStep rng step avail)) x
      by_cases hx : x = sampleStep rng step avail
      · rw [hx, List.count_cons_self]
        rw [hx, List.count_erase_self] at ihx
        have hpos : 0 < avail.count (sampleStep rng step avail) :=
          List.count_pos_iff.mpr hmem
        omega
      · rw [List.count_cons_of_ne hx]
        rw [List.count_erase_of_ne hx] at ihx
        exact ihx

/-- C1 (amended): for any randomness, `weighted_sample_no_replacement`
returns exactly `min k (len pool)` tiles drawn without replacement at the
pool-entry level (a sub-multiset of the pool — each pool entry is drawn at
most once, so an object that the pool references `m` times may appear up to
`m` times in the output); when `k` is at least the pool size the whole pool
is returned (up to order); and when the pool's entries are pairwise distinct
objects the output is distinct.  The input list itself is never modified:
the source operates on working copies, which the functional embedding
renders by returning the selection and leaving the pool untouched. -/
theorem C1_sampler_spec (rng : Rng) (pool : List Piece) (k : Nat)
    (hr : ∀ i, rng.wr i < 1) :
    (weighted_sample_no_replacement rng pool k).length = min k pool.length ∧
    List.Subperm (weighted_sample_no_replacement rng pool k) pool ∧
    (pool.length ≤ k → (weighted_sample_no_replacement rng pool k).Perm pool) ∧
    (pool.Nodup → (weighted_sample_no_replacement rng pool k).Nodup) := by
  have hlen : (weighted_sample_no_replacement rng pool k).length = min k pool.length :=
    wsnrGo_length rng hr (min k pool.length) 0 pool (Nat.min_le_right _ _)
  have hsub : List.Subperm (weighted_sample_no_replacement rng pool k) pool := by
    rw [List.subperm_ext_iff]
    intro x _
    exact wsnrGo_count rng hr (min k pool.length) 0 pool x
  refine ⟨hlen, hsub, ?_, ?_⟩
  · intro hk
    refine hsub.perm_of_length_le ?_
    rw [hlen]
    omega
  · intro hnd
    obtain ⟨l, hlp, hls⟩ := hsub
    exact hlp.nodup_iff.mp (hnd.sublist hls)

/-- C1 witness: a concrete full draw over a duplicate-free two-tile pool. -/
theorem C1_sampler_spec_witness :
    (weighted_sample_no_replacement rng0 [corridor, attic] 5).Perm [corridor, attic] ∧
    (weighted_sample_no_replacement rng0 [corridor, attic] 5).Nodup := by
  have h := C1_sampler_spec rng0 [corridor, attic] 5 (fun i => by norm_num [rng0])
  exact ⟨h.2.2.1 (by norm_num), h.2.2.2 (by decide)⟩

/-- C1 counterexample: the initial deck holds the same `Piece` object several
times (the Corridor at least twice), and over a pool referencing the same
object twice the sampler returns that object twice — the returned tiles are
not pairwise distinct by identity, against the claim's distinctness
guarantee. -/
theorem C1_counterexample :
    2 ≤ INITIAL_DECK.count corridor ∧
    weighted_sample_no_replacement rng0 [corridor, corridor] 2 = [corridor, corridor] ∧
    ¬ (weighted_sample_no_replacement rng0 [corridor, corridor] 2).Nodup := by
  have hr0 : ∀ i, rng0.wr i < 1 := fun i => by norm_num [rng0]
  have hlen : (weighted_sample_no_replacement rng0 [corridor, corridor] 2).length = 2 :=
    wsnrGo_length rng0 hr0 (min 2 [corridor, corridor].length) 0 [corridor, corridor]
      (Nat.min_le_right _ _)
  have hsub : List.Subperm (weighted_sample_no_replacement rng0 [corridor, corridor] 2)
      [corridor, corridor] := by
    rw [List.subperm_ext_iff]
    intro x _
    exact wsnrGo_count rng0 hr0 _ 0 [corridor, corridor] x
  have hmemc : ∀ x ∈ weighted_sample_no_replacement rng0 [corridor, corridor] 2,
      x = corridor := by
    intro x hx
    have := hsub.subset hx
    simpa using this
  obtain ⟨a, b, hab⟩ := List.length_eq_two.mp hlen
  have ha : a = corridor := hmemc a (by rw [hab]; exact List.mem_cons_self _ _)
  have hb : b = corridor := hmemc b (by rw [hab]; simp)
  have heq : weighted_sample_no_replacement rng0 [corridor, corridor] 2 =
      [corridor, corridor] := by rw [hab, ha, hb]
  refine ⟨by set_option maxRecDepth 100000 in decide, heq, ?_⟩
  rw [heq]
  decide

/-- The spec's linear interpolation fraction: 0 at the start (bottom) row,
1 at the farthest (top) row. -/
def tfrac (row : Int) : ℚ :=
  ((ROWS : ℚ) - 1 - (row : ℚ)) / ((ROWS : ℚ) - 1)

/-- The spec's strong-lock probability `p2 = 0.1 + 0.7 t`. -/
def p2spec (row : Int) : ℚ := 1 / 10 + 7 / 10 * tfrac row

/-- The spec's open probability `p0 = 0.7 - 0.6 t`. -/
def p0spec (row : Int) : ℚ := 7 / 10 - 6 / 10 * tfrac row

/-- The spec's weak-lock probability `p1 = max(0, 1 - p0 - p2)`. -/
def p1spec (row : Int) : ℚ := max 0 (1 - p0spec row - p2spec row)

/-- C6: the door-lock policy is deterministic at the boundary rows (0 at the
bottom row `ROWS - 1`, 2 at the top row 0); for every intermediate row the
drawn level is the categorical outcome with thresholds `p0`, `p0 + p1` from
the spec's formulas; and the result is always one of 0, 1, 2. -/
theorem C6_door_lock_policy (rand : ℚ) (row : Int) :
    door_lock_for_target_row rand (ROWS - 1) = 0 ∧
    door_lock_for_target_row rand 0 = 2 ∧
    (0 < row → row < ROWS - 1 →
      ((door_lock_for_target_row rand row = 0 ↔ rand < p0spec row) ∧
       (door_lock_for_target_row rand row = 1 ↔
         p0spec row ≤ rand ∧ rand < p0spec row + p1spec row) ∧
       (door_lock_for_target_row rand row = 2 ↔ p0spec row + p1spec row ≤ rand))) ∧
    (door_lock_for_target_row rand row = 0 ∨ door_lock_for_target_row rand row = 1 ∨
      door_lock_for_target_row rand row = 2) := by
  have hrows : ¬ (ROWS ≤ 1) := by norm_num [ROWS]
  refine ⟨?_, ?_, ?_, ?_⟩
  · simp [door_lock_for_target_row]
  · norm_num [door_lock_for_target_row, ROWS]
  · intro h1 h2
    have hR : ROWS = (9 : Int) := rfl
    have hne1 : ¬ row = ROWS - 1 := by omega
    have hne0 : ¬ row = 0 := by omega
    have hp1 : 0 ≤ p1spec row := le_max_left 0 _
    simp only [door_lock_for_target_row, p0spec, p1spec, p2spec, tfrac]
    rw [if_neg hrows, if_neg hne1, if_neg hne0]
    simp only [p0spec, p1spec, p2spec, tfrac] at hp1
    split_ifs with hr1 hr2
    · refine ⟨⟨fun _ => hr1, fun _ => rfl⟩, ?_, ?_⟩
      · constructor
        · intro h0; exact absurd h0 (by norm_num)
        · intro hc; linarith [hc.1]
      · constructor
        · intro h0; exact absurd h0 (by norm_num)
        · intro hc; linarith
    · refine ⟨?_, ⟨fun _ => ⟨by linarith [not_lt.mp hr1], hr2⟩, fun _ => rfl⟩, ?_⟩
      · constructor
        · intro h0; exact absurd h0 (by norm_num)
        · intro hc; exact absurd hc hr1
      · constructor
        · intro h0; exact absurd h0 (by norm_num)
        · intro hc; linarith
    · refine ⟨?_, ?_, ⟨fun _ => not_lt.mp hr2, fun _ => rfl⟩⟩
      · constructor
        · intro h0; exact absurd h0 (by norm_num)
        · intro hc; exact absurd hc hr1
      · constructor
        · intro h0; exact absurd h0 (by norm_num)
        · intro hc; exact absurd hc.2 hr2
  · simp only [door_lock_for_target_row]
    split_ifs <;> simp

/-- C6 witness: on intermediate row 4 with draw 0, the policy yields lock 0
(the draw is below `p0 = 2/5`). -/
theorem C6_witness : door_lock_for_target_row 0 4 = 0 := by
  have h := (C6_door_lock_policy 0 4).2.2.1 (by norm_num) (by norm_num [ROWS])
  exact h.1.mpr (by norm_num [p0spec, tfrac, ROWS])

/-- Every state component except the feedback message agrees between two
states (used to express "the command was rejected in place"). -/
def rejectedInPlace (a b : GameState) : Prop :=
  a.selection_mode = b.selection_mode ∧ a.candidates = b.candidates ∧
  a.selection_pos = b.selection_pos ∧ a.target_cell = b.target_cell ∧
  a.deck = b.deck ∧ a.grid = b.grid ∧ a.player_r = b.player_r ∧
  a.player_c = b.player_c ∧ a.inventory = b.inventory ∧
  a.running = b.running ∧ a.in_shop = b.in_shop

/-- C3: in selection mode, when the highlighted candidate costs more gems
than the player holds, `confirm_selection` rejects the command: everything
except the feedback message — selection mode, candidate list, cursor, target
cell, deck, board grid, player position, inventory, running flag — is left
exactly as it was, and no mutation happens on any rejection path. -/
theorem C3_confirm_rejects_unaffordable (rng : Rng) (g : GameState)
    (hsel : g.selection_mode = true)
    (hpos : 0 ≤ g.selection_pos)
    (hlt : g.selection_pos < (g.candidates.length : Int))
    (hgems : 0 ≤ g.inventory.conso "gemmes")
    (hcost : g.inventory.conso "gemmes" <
      ((g.candidates.getD g.selection_pos.toNat default).cout : Int)) :
    rejectedInPlace (confirm_selection rng g) g ∧
    (confirm_selection rng g).selection_mode = true := by
  have hcout : 0 < (g.candidates.getD g.selection_pos.toNat default).cout := by
    by_contra h
    have h0 : (g.candidates.getD g.selection_pos.toNat default).cout = 0 := by omega
    rw [h0] at hcost
    simp at hcost
    linarith
  have hrip : rejectedInPlace (confirm_selection rng g) g := by
    have rip_refl : rejectedInPlace g g :=
      ⟨rfl, rfl, rfl, rfl, rfl, rfl, rfl, rfl, rfl, rfl, rfl⟩
    have rip_msg : ∀ m, rejectedInPlace { g with turn_msg := m } g :=
      fun m => ⟨rfl, rfl, rfl, rfl, rfl, rfl, rfl, rfl, rfl, rfl, rfl⟩
    unfold confirm_selection
    dsimp only
    split
    · exact rip_refl
    · split
      · exact rip_refl
      · split
        · exact rip_refl
        · split
          · exact rip_msg _
          · split
            · exact rip_msg _
            · rename_i hcond
              exact absurd ⟨hcout, hcost⟩ hcond
  exact ⟨hrip, hrip.1.trans hsel⟩

/-- A concrete selection-mode state: entrance at the start cell, the Attic
(cost 3) highlighted, 2 gems held. -/
def g3c : GameState :=
  { deck := [attic],
    grid := fun r c => if r = 8 ∧ c = 2 then { piece := some entranceHall } else emptyCell,
    player_r := 8, player_c := 2,
    inventory := initInventory,
    turn_msg := "", selection_mode := true, candidates := [attic], selection_pos := 0,
    target_cell := some (7, 2), running := true, in_shop := false }

/-- C3 witness: confirming the Attic with only 2 gems is rejected in place. -/
theorem C3_witness :
    rejectedInPlace (confirm_selection rng0 g3c) g3c ∧
    (confirm_selection rng0 g3c).selection_mode = true :=
  C3_confirm_rejects_unaffordable rng0 g3c rfl (by decide) (by decide) (by decide) (by decide)

theorem OPP_OPP (d : Dir) : OPP (OPP d) = d := by cases d <;> rfl

theorem dRow_OPP (d : Dir) : dRow (OPP d) = -dRow d := by cases d <;> decide

theorem dCol_OPP (d : Dir) : dCol (OPP d) = -dCol d := by cases d <;> decide

theorem delta_ne_zero (d : Dir) : ¬ (dRow d = 0 ∧ dCol d = 0) := by cases d <;> decide

theorem mem_dirList (d : Dir) : d ∈ dirList := by cases d <;> decide

/-- Extraction of the neighbor-agreement condition (condition 3) from a
successful `can_place_with_ports` check: toward every in-bounds occupied
neighbor the placed ports and the neighbor's ports agree in both
directions. -/
theorem cpwp_neighbor {g : GameState} {ports : Ports} {tr tc : Int} {fd : Dir}
    (h : can_place_with_ports g ports tr tc fd = true) (d : Dir)
    (hin : in_bounds (tr + dRow d) (tc + dCol d) = true)
    (hocc : (g.grid (tr + dRow d) (tc + dCol d)).piece.isSome = true) :
    pget ports d = pget (cell_ports g (tr + dRow d) (tc + dCol d)) (OPP d) := by
  unfold can_place_with_ports at h
  simp only [Bool.and_eq_true, List.all_eq_true] at h
  have h3 := h.2 d (mem_dirList d)
  simp only [hin, if_true] at h3
  obtain ⟨pc, hpc⟩ := Option.isSome_iff_exists.mp hocc
  rw [hpc] at h3
  simpa using h3

theorem commit_grid_other (g : GameState) (tr tc : Int) (choice : Piece) (rot : Nat)
    (r c : Int) (h : ¬ (r = tr ∧ c = tc)) :
    (commitPiece g tr tc choice rot).grid r c = g.grid r c := by
  simp [commitPiece, gridSet, h]

theorem cell_ports_commit_same (g : GameState) (tr tc : Int) (choice : Piece) (rot : Nat) :
    cell_ports (commitPiece g tr tc choice rot) tr tc = rotated_ports choice.ports rot := by
  simp [cell_ports, commitPiece, gridSet]

theorem cell_ports_commit_other (g : GameState) (tr tc : Int) (choice : Piece) (rot : Nat)
    (r c : Int) (h : ¬ (r = tr ∧ c = tc)) :
    cell_ports (commitPiece g tr tc choice rot) r c = cell_ports g r c := by
  simp [cell_ports, commit_grid_other g tr tc choice rot r c h]

/-- Port reciprocity of a board: for every in-bounds pair of adjacent
occupied cells, the tile ports agree in both directions
(post-rotation). -/
def reciprocal (g : GameState) : Prop :=
  ∀ r c d, in_bounds r c = true → in_bounds (r + dRow d) (c + dCol d) = true →
    (g.grid r c).piece.isSome = true →
    (g.grid (r + dRow d) (c + dCol d)).piece.isSome = true →
    pget (cell_ports g r c) d = pget (cell_ports g (r + dRow d) (c + dCol d)) (OPP d)

/-- C5: the rotation committed by `confirm_selection` always passed the
`can_place_with_ports` check (it is found by the rotation search), and
committing a tile whose rotated ports pass that check preserves the port
reciprocity invariant: no one-sided port between occupied cells is ever
created. -/
theorem C5_port_reciprocity (g : GameState) (tr tc : Int) (choice : Piece) (fd : Dir) :
    (∀ rot, findRotation g choice tr tc fd = some rot →
      can_place_with_ports g (rotated_ports choice.ports rot) tr tc fd = true) ∧
    (∀ rot, reciprocal g →
      can_place_with_ports g (rotated_ports choice.ports rot) tr tc fd = true →
      reciprocal (commitPiece g tr tc choice rot)) := by
  constructor
  · intro rot hfind
    unfold findRotation at hfind
    simpa using List.find?_some hfind
  · intro rot hrec hcp r c d hbr hbn hocc1 hocc2
    by_cases h1 : r = tr ∧ c = tc
    · by_cases h2 : r + dRow d = tr ∧ c + dCol d = tc
      · exfalso
        apply delta_ne_zero d
        obtain ⟨e1, e2⟩ := h1
        obtain ⟨f1, f2⟩ := h2
        constructor <;> omega
      · obtain ⟨e1, e2⟩ := h1
        subst e1
        subst e2
        have hocc2' : (g.grid (r + dRow d) (c + dCol d)).piece.isSome = true := by
          rw [← commit_grid_other g r c choice rot _ _ h2]
          exact hocc2
        rw [cell_ports_commit_same, cell_ports_commit_other g r c choice rot _ _ h2]
        exact cpwp_neighbor hcp d hbn hocc2'
    · by_cases h2 : r + dRow d = tr ∧ c + dCol d = tc
      · obtain ⟨f1, f2⟩ := h2
        have hr' : tr + dRow (OPP d) = r := by rw [dRow_OPP]; omega
        have hc' : tc + dCol (OPP d) = c := by rw [dCol_OPP]; omega
        have hocc1' : (g.grid r c).piece.isSome = true := by
          rw [← commit_grid_other g tr tc choice rot r c h1]
          exact hocc1
        have hin' : in_bounds (tr + dRow (OPP d)) (tc + dCol (OPP d)) = true := by
          rw [hr', hc']
          exact hbr
        have hx := cpwp_neighbor hcp (OPP d) hin' (by rw [hr', hc']; exact hocc1')
        rw [hr', hc', OPP_OPP] at hx
        rw [cell_ports_commit_other g tr tc choice rot r c h1, f1, f2,
          cell_ports_commit_same]
        exact hx.symm
      · have ho1 : (g.grid r c).piece.isSome = true := by
          rw [← commit_grid_other g tr tc choice rot r c h1]
          exact hocc1
        have ho2 : (g.grid (r + dRow d) (c + dCol d)).piece.isSome = true := by
          rw [← commit_grid_other g tr tc choice rot _ _ h2]
          exact hocc2
        rw [cell_ports_commit_other g tr tc choice rot r c h1,
          cell_ports_commit_other g tr tc choice rot _ _ h2]
        exact hrec r c d hbr hbn ho1 ho2

/-- An entirely empty board state. -/
def gEmpty : GameState :=
  { deck := [], grid := fun _ _ => emptyCell, player_r := 8, player_c := 2,
    inventory := initInventory, turn_msg := "", selection_mode := false,
    candidates := [], selection_pos := 0, target_cell := none, running := true,
    in_shop := false }

/-- C5 witness: committing the entrance tile on an empty board preserves
reciprocity. -/
theorem C5_witness : reciprocal (commitPiece gEmpty 8 2 entranceHall 0) :=
  (C5_port_reciprocity gEmpty 8 2 entranceHall Dir.down).2 0
    (fun _ _ _ _ _ h3 _ => absurd h3 (by simp [gEmpty, emptyCell]))
    (by decide)

theorem retirer_conso_self (inv : Inventory) (n : String) (q : Int) (h : q ≤ inv.conso n) :
    (retirer inv n q).1.conso n = inv.conso n - q := by
  simp [retirer, h]

theorem retirer_conso_ne (inv : Inventory) (n : String) (q : Int) (m : String) (h : m ≠ n) :
    (retirer inv n q).1.conso m = inv.conso m := by
  unfold retirer
  split <;> simp [h]

/-- Reduction of `open_door_or_move` to its occupied-cell branch. -/
theorem open_door_or_move_occupied (rng : Rng) (g : GameState) (d : Dir)
    (hin : in_bounds (g.player_r + dRow d) (g.player_c + dCol d) = true)
    (hocc : (g.grid (g.player_r + dRow d) (g.player_c + dCol d)).piece.isSome = true) :
    open_door_or_move rng g d =
      moveIntoOccupied rng g d (g.player_r + dRow d) (g.player_c + dCol d) := by
  obtain ⟨pc, hpc⟩ := Option.isSome_iff_exists.mp hocc
  unfold open_door_or_move
  simp [hin, hpc]

/-- The state reached by opening a locked door with a key and stepping in:
one key gone, the connection open on both sides, one step gone, the player in
the target cell (the mutations of `open_door_or_move` before `on_enter`). -/
def keyMoveState (g : GameState) (d : Dir) (tr tc : Int) : GameState :=
  let g1 := openDoorPair
    { g with inventory := (retirer g.inventory "cles" 1).1,
             turn_msg := "Used a key to open the door." } d tr tc
  { g1 with inventory := (retirer g1.inventory "pas" 1).1,
            player_r := tr, player_c := tc, in_shop := false }

/-- C7 (amended): a move toward an occupied cell behind a locked door is
rejected without any mutation when no usable key or kit is held; with lock
level 2, at least one key and at least one step, exactly one key is consumed,
the lock becomes 0 on both sides, the step counter decreases by 1 after the
door is opened and the player enters (the remaining resolution being the
on-enter effects).  When the step counter is already exhausted the door
opening still happens and consumes the key even though the move itself is
then refused — the command is atomic only while a step remains. -/
theorem C7_occupied_move (rng : Rng) (g : GameState) (d : Dir) :
    (in_bounds (g.player_r + dRow d) (g.player_c + dCol d) = true →
     (g.grid (g.player_r + dRow d) (g.player_c + dCol d)).piece.isSome = true →
     0 < (((g.grid (g.player_r + dRow d) (g.player_c + dCol d)).doors (OPP d)).getD 0) →
     ¬ (g.inventory.perm "kit_de_crochetage" = true ∧
        ((g.grid (g.player_r + dRow d) (g.player_c + dCol d)).doors (OPP d)).getD 0 = 1) →
     g.inventory.conso "cles" ≤ 0 →
     open_door_or_move rng g d =
       { g with turn_msg := "Door is locked and you have no key/kit." }) ∧
    (in_bounds (g.player_r + dRow d) (g.player_c + dCol d) = true →
     (g.grid (g.player_r + dRow d) (g.player_c + dCol d)).piece.isSome = true →
     ((g.grid (g.player_r + dRow d) (g.player_c + dCol d)).doors (OPP d)).getD 0 = 2 →
     0 < g.inventory.conso "cles" → 0 < g.inventory.conso "pas" →
     (open_door_or_move rng g d =
        on_enter rng (keyMoveState g d (g.player_r + dRow d) (g.player_c + dCol d))
          (g.player_r + dRow d) (g.player_c + dCol d) ∧
      (keyMoveState g d (g.player_r + dRow d) (g.player_c + dCol d)).inventory.conso "cles" =
        g.inventory.conso "cles" - 1 ∧
      (keyMoveState g d (g.player_r + dRow d) (g.player_c + dCol d)).inventory.conso "pas" =
        g.inventory.conso "pas" - 1 ∧
      ((keyMoveState g d (g.player_r + dRow d) (g.player_c + dCol d)).grid
          (g.player_r + dRow d) (g.player_c + dCol d)).doors (OPP d) = some 0 ∧
      ((keyMoveState g d (g.player_r + dRow d) (g.player_c + dCol d)).grid
          g.player_r g.player_c).doors d = some 0 ∧
      (keyMoveState g d (g.player_r + dRow d) (g.player_c + dCol d)).player_r =
        g.player_r + dRow d ∧
      (keyMoveState g d (g.player_r + dRow d) (g.player_c + dCol d)).player_c =
        g.player_c + dCol d)) := by
  constructor
  · intro hin hocc hlock hkit hkeys
    rw [open_door_or_move_occupied rng g d hin hocc]
    unfold moveIntoOccupied
    dsimp only
    rw [if_pos hlock, if_neg hkit, if_neg (by omega)]
  · intro hin hocc hlock hkeys hpas
    have hg1pas : ((retirer g.inventory "cles" 1).1).conso "pas" = g.inventory.conso "pas" :=
      retirer_conso_ne g.inventory "cles" 1 "pas" (by decide)
    have hmain : open_door_or_move rng g d =
        on_enter rng (keyMoveState g d (g.player_r + dRow d) (g.player_c + dCol d))
          (g.player_r + dRow d) (g.player_c + dCol d) := by
      rw [open_door_or_move_occupied rng g d hin hocc]
      unfold moveIntoOccupied
      dsimp only
      rw [hlock]
      rw [if_pos (by norm_num : (0 : Nat) < 2)]
      rw [if_neg (fun he => absurd he.2 (by norm_num))]
      rw [if_pos hkeys]
      have hpas1 : ¬ ((openDoorPair
          { g with inventory := (retirer g.inventory "cles" 1).1,
                   turn_msg := "Used a key to open the door." } d
          (g.player_r + dRow d) (g.player_c + dCol d)).inventory.conso "pas" ≤ 0) := by
        show ¬ ((retirer g.inventory "cles" 1).1.conso "pas" ≤ 0)
        rw [hg1pas]
        omega
      dsimp only
      rw [if_neg hpas1]
      rfl
    refine ⟨hmain, ?_, ?_, ?_, ?_, rfl, rfl⟩
    · show ((retirer ((retirer g.inventory "cles" 1).1) "pas" 1).1).conso "cles" =
        g.inventory.conso "cles" - 1
      rw [retirer_conso_ne _ "pas" 1 "cles" (by decide)]
      exact retirer_conso_self g.inventory "cles" 1 (by omega)
    · show ((retirer ((retirer g.inventory "cles" 1).1) "pas" 1).1).conso "pas" =
        g.inventory.conso "pas" - 1
      rw [retirer_conso_self _ "pas" 1 (by rw [hg1pas]; omega), hg1pas]
    · simp [keyMoveState, openDoorPair, gridSet, setDoor, delta_ne_zero d]
    · simp [keyMoveState, openDoorPair, gridSet, setDoor, delta_ne_zero d]

/-- A state with a level-2 locked door to an occupied neighbor above, one
key, and zero steps. -/
def gC7 : GameState :=
  { deck := [],
    grid := fun r c =>
      if r = 8 ∧ c = 2 then { piece := some entranceHall }
      else if r = 7 ∧ c = 2 then
        { piece := some corridor, doors := fun e => if e = Dir.down then some 2 else none }
      else emptyCell,
    player_r := 8, player_c := 2,
    inventory := { conso := fun n => if n = "cles" then 1 else 0, perm := fun _ => false },
    turn_msg := "", selection_mode := false, candidates := [], selection_pos := 0,
    target_cell := none, running := true, in_shop := false }

/-- C7 counterexample: with zero steps left, moving through the level-2
locked door consumes the key and opens the lock on both sides, and only then
is the command refused ("No steps left!") with the player unmoved — mutation
happened although the command was rejected, so the command is not atomic as
claimed. -/
theorem C7_counterexample :
    gC7.inventory.conso "cles" = 1 ∧
    gC7.inventory.conso "pas" = 0 ∧
    (open_door_or_move rng0 gC7 Dir.up).player_r = 8 ∧
    (open_door_or_move rng0 gC7 Dir.up).player_c = 2 ∧
    (open_door_or_move rng0 gC7 Dir.up).turn_msg = "No steps left! You can't move." ∧
    (open_door_or_move rng0 gC7 Dir.up).inventory.conso "cles" = 0 ∧
    ((open_door_or_move rng0 gC7 Dir.up).grid 7 2).doors Dir.down = some 0 ∧
    ((open_door_or_move rng0 gC7 Dir.up).grid 8 2).doors Dir.up = some 0 := by
  refine ⟨rfl, rfl, ?_, ?_, ?_, ?_, ?_, ?_⟩ <;> decide

/-- C7 witness: both amended branches at concrete states — rejection without
mutation when no key is held, and the full key-consuming entry when a key
and a step are available. -/
theorem C7_witness :
    (open_door_or_move rng0
        { gC7 with inventory := { conso := fun _ => 0, perm := fun _ => false } } Dir.up =
      { gC7 with
          inventory := { conso := fun _ => 0, perm := fun _ => false },
          turn_msg := "Door is locked and you have no key/kit." }) ∧
    (keyMoveState
        { gC7 with inventory := { conso := fun n => if n = "pas" then 5 else 1, perm := fun _ => false } }
        Dir.up 7 2).inventory.conso "cles" = 0 := by
  constructor
  · exact (C7_occupied_move rng0
      { gC7 with inventory := { conso := fun _ => 0, perm := fun _ => false } } Dir.up).1
      (by decide) (by decide) (by decide) (by decide) (by decide)
  · have h := (C7_occupied_move rng0
      { gC7 with inventory := { conso := fun n => if n = "pas" then 5 else 1, perm := fun _ => false } }
      Dir.up).2 (by decide) (by decide) (by decide) (by decide) (by decide)
    have hc := h.2.1
    simpa using hc

theorem wsnr_length (rng : Rng) (hr : ∀ i, rng.wr i < 1) (pool : List Piece) (k : Nat) :
    (weighted_sample_no_replacement rng pool k).length = min k pool.length :=
  wsnrGo_length rng hr (min k pool.length) 0 pool (Nat.min_le_right _ _)

theorem wsnr_subperm (rng : Rng) (hr : ∀ i, rng.wr i < 1) (pool : List Piece) (k : Nat) :
    List.Subperm (weighted_sample_no_replacement rng pool k) pool := by
  rw [List.subperm_ext_iff]
  intro x _
  exact wsnrGo_count rng hr (min k pool.length) 0 pool x

theorem dirOfDelta_dir (d : Dir) : dirOfDelta (dRow d) (dCol d) = some d := by
  cases d <;> decide

/-- The legal pool of `generate_candidates`: deck tiles passing
`fits_board_and_direction` at the target. -/
def legalPool (g : GameState) (tr tc : Int) (d : Dir) : List Piece :=
  g.deck.filter (fun p => fits_board_and_direction g p tr tc d)

/-- The post-filter pool of `generate_candidates`: the legal pool filtered by
affordability, falling back to the unfiltered legal pool when that filter
empties it. -/
def gcPool (g : GameState) (tr tc : Int) (d : Dir) : List Piece :=
  let pool0 := (legalPool g tr tc d).filter
    (fun p => p.cout == 0 || decide ((p.cout : Int) ≤ g.inventory.conso "gemmes"))
  if pool0.isEmpty then legalPool g tr tc d else pool0

/-- `generate_candidates` re-expressed through `legalPool` and `gcPool`. -/
theorem generate_candidates_eq (rng : Rng) (g : GameState) (tr tc : Int) (d : Dir) :
    generate_candidates rng g tr tc d =
      if (legalPool g tr tc d).isEmpty then []
      else
        (if (((gcPool g tr tc d).filter (fun p => p.cout == 0)).isEmpty) then
          weighted_sample_no_replacement rng (gcPool g tr tc d) 3
         else
          let zero := (gcPool g tr tc d).filter (fun p => p.cout == 0)
          let free := zero.getD (rng.zeroPick % zero.length) default
          free :: weighted_sample_no_replacement rng
            ((gcPool g tr tc d).filter (fun p => p != free)) 2).take 3 := by
  unfold generate_candidates gcPool legalPool
  rfl

theorem gcPool_ne_nil (g : GameState) (tr tc : Int) (d : Dir)
    (h : legalPool g tr tc d ≠ []) : gcPool g tr tc d ≠ [] := by
  unfold gcPool
  dsimp only
  split
  · exact h
  · rename_i hne
    simpa [List.isEmpty_iff] using hne

theorem gcPool_subset_legal (g : GameState) (tr tc : Int) (d : Dir) :
    gcPool g tr tc d ⊆ legalPool g tr tc d := by
  unfold gcPool
  dsimp only
  split
  · exact fun x hx => hx
  · exact (List.filter_sublist _).subset

/-- C4: moving into an empty in-bounds cell generates between 1 and 3
candidates from the deck's legal pool whenever that pool is nonempty — all of
them drawn from the affordability-filtered pool (with fallback to the
unfiltered legal pool), with at least one zero-cost candidate whenever the
(post-filter) pool holds one — and enters selection mode; when the legal
pool is empty the move is rejected with the "no legal room" message and only
the message changes (the game stays out of selection mode). -/
theorem C4_candidate_generation (rng : Rng) (g : GameState) (d : Dir)
    (hr : ∀ i, rng.wr i < 1)
    (hin : in_bounds (g.player_r + dRow d) (g.player_c + dCol d) = true)
    (hempty : (g.grid (g.player_r + dRow d) (g.player_c + dCol d)).piece = none) :
    (legalPool g (g.player_r + dRow d) (g.player_c + dCol d) d = [] →
      generate_candidates rng g (g.player_r + dRow d) (g.player_c + dCol d) d = [] ∧
      open_door_or_move rng g d = { g with turn_msg := "No legal rooms can be placed here." }) ∧
    (legalPool g (g.player_r + dRow d) (g.player_c + dCol d) d ≠ [] →
      1 ≤ (generate_candidates rng g (g.player_r + dRow d) (g.player_c + dCol d) d).length ∧
      (generate_candidates rng g (g.player_r + dRow d) (g.player_c + dCol d) d).length ≤ 3 ∧
      (∀ q ∈ generate_candidates rng g (g.player_r + dRow d) (g.player_c + dCol d) d,
        q ∈ gcPool g (g.player_r + dRow d) (g.player_c + dCol d) d) ∧
      ((∃ p ∈ gcPool g (g.player_r + dRow d) (g.player_c + dCol d) d, p.cout = 0) →
        ∃ q ∈ generate_candidates rng g (g.player_r + dRow d) (g.player_c + dCol d) d,
          q.cout = 0) ∧
      open_door_or_move rng g d =
        { g with selection_mode := true,
                 candidates := generate_candidates rng g (g.player_r + dRow d)
                   (g.player_c + dCol d) d,
                 selection_pos := 0,
                 target_cell := some (g.player_r + dRow d, g.player_c + dCol d),
                 turn_msg := "Choose a room (ENTER) or press R to redraw (spend a die)." }) := by
  have hselect : open_door_or_move rng g d =
      selectionBranch rng g d (g.player_r + dRow d) (g.player_c + dCol d) := by
    unfold open_door_or_move
    simp [hin, hempty]
  have hreal : (dirOfDelta (g.player_r + dRow d - g.player_r)
      (g.player_c + dCol d - g.player_c)).getD d = d := by
    have e1 : g.player_r + dRow d - g.player_r = dRow d := by ring
    have e2 : g.player_c + dCol d - g.player_c = dCol d := by ring
    rw [e1, e2, dirOfDelta_dir]
    rfl
  constructor
  · intro hnil
    have hc : generate_candidates rng g (g.player_r + dRow d) (g.player_c + dCol d) d = [] := by
      rw [generate_candidates_eq, hnil]
      rfl
    refine ⟨hc, ?_⟩
    rw [hselect]
    unfold selectionBranch
    dsimp only
    rw [hreal, hc]
    rfl
  · intro hne
    have hpoolne : gcPool g (g.player_r + dRow d) (g.player_c + dCol d) d ≠ [] :=
      gcPool_ne_nil _ _ _ _ hne
    have hpoolpos : 0 < (gcPool g (g.player_r + dRow d) (g.player_c + dCol d) d).length :=
      List.length_pos.mpr hpoolne
    have hfacts :
        1 ≤ (generate_candidates rng g (g.player_r + dRow d) (g.player_c + dCol d) d).length ∧
        (generate_candidates rng g (g.player_r + dRow d) (g.player_c + dCol d) d).length ≤ 3 ∧
        (∀ q ∈ generate_candidates rng g (g.player_r + dRow d) (g.player_c + dCol d) d,
          q ∈ gcPool g (g.player_r + dRow d) (g.player_c + dCol d) d) ∧
        ((∃ p ∈ gcPool g (g.player_r + dRow d) (g.player_c + dCol d) d, p.cout = 0) →
          ∃ q ∈ generate_candidates rng g (g.player_r + dRow d) (g.player_c + dCol d) d,
            q.cout = 0) := by
      rw [generate_candidates_eq,
        if_neg (by simpa [List.isEmpty_iff] using hne)]
      by_cases hz : (((gcPool g (g.player_r + dRow d) (g.player_c + dCol d) d).filter
          (fun p => p.cout == 0)).isEmpty)
      · rw [if_pos hz]
        have hlen : ((weighted_sample_no_replacement rng
            (gcPool g (g.player_r + dRow d) (g.player_c + dCol d) d) 3).take 3).length =
            min 3 (min 3 (gcPool g (g.player_r + dRow d) (g.player_c + dCol d) d).length) := by
          rw [List.length_take, wsnr_length rng hr]
        refine ⟨?_, ?_, ?_, ?_⟩
        · rw [hlen]; omega
        · rw [hlen]; omega
        · intro q hq
          exact (wsnr_subperm rng hr _ 3).subset (List.take_subset _ _ hq)
        · rintro ⟨p, hp, hp0⟩
          exfalso
          rw [List.isEmpty_iff] at hz
          have : p ∈ (gcPool g (g.player_r + dRow d) (g.player_c + dCol d) d).filter
              (fun p => p.cout == 0) := List.mem_filter.mpr ⟨hp, by simp [hp0]⟩
          rw [hz] at this
          exact List.not_mem_nil p this
      · rw [if_neg hz]
        have hzne : ((gcPool g (g.player_r + dRow d) (g.player_c + dCol d) d).filter
            (fun p => p.cout == 0)) ≠ [] := by
          simpa [List.isEmpty_iff] using hz
        have hzpos : 0 < ((gcPool g (g.player_r + dRow d) (g.player_c + dCol d) d).filter
            (fun p => p.cout == 0)).length := List.length_pos.mpr hzne
        set zero := (gcPool g (g.player_r + dRow d) (g.player_c + dCol d) d).filter
            (fun p => p.cout == 0) with hzero
        set free := zero.getD (rng.zeroPick % zero.length) default with hfree
        have hfreemem : free ∈ zero := by
          rw [hfree, List.getD_eq_getElem zero default (Nat.mod_lt _ hzpos)]
          exact List.getElem_mem _
        have hfreepool : free ∈ gcPool g (g.player_r + dRow d) (g.player_c + dCol d) d :=
          List.mem_of_mem_filter hfreemem
        have hfree0 : free.cout = 0 := by
          have := List.of_mem_filter hfreemem
          simpa using this
        dsimp only
        rw [List.take_succ_cons]
        refine ⟨?_, ?_, ?_, ?_⟩
        · simp
        · have : ((weighted_sample_no_replacement rng
              ((gcPool g (g.player_r + dRow d) (g.player_c + dCol d) d).filter
                (fun p => p != free)) 2).take 2).length ≤ 2 := by
            rw [List.length_take]
            omega
          simpa using this
        · intro q hq
          rcases List.mem_cons.mp hq with hq | hq
          · rw [hq]; exact hfreepool
          · have hq2 := (wsnr_subperm rng hr _ 2).subset (List.take_subset _ _ hq)
            exact List.mem_of_mem_filter hq2
        · intro _
          exact ⟨free, List.mem_cons_self _ _, hfree0⟩
    have hcne : generate_candidates rng g (g.player_r + dRow d) (g.player_c + dCol d) d ≠ [] := by
      intro he
      rw [he] at hfacts
      simp at hfacts
    refine ⟨hfacts.1, hfacts.2.1, hfacts.2.2.1, hfacts.2.2.2, ?_⟩
    rw [hselect]
    unfold selectionBranch
    dsimp only
    rw [hreal, if_neg (by simpa [List.isEmpty_iff] using hcne)]

/-- A fresh-game-like state with a two-tile deck, used to run a concrete
move into the empty cell above the start. -/
def g4w : GameState :=
  { deck := [corridor, bedroom],
    grid := fun r c => if r = 8 ∧ c = 2 then { piece := some entranceHall } else emptyCell,
    player_r := 8, player_c := 2,
    inventory := initInventory,
    turn_msg := "", selection_mode := false, candidates := [], selection_pos := 0,
    target_cell := none, running := true, in_shop := false }

/-- C4 witness: from the start, moving up with a nonempty legal pool yields
at least one candidate and enters selection mode. -/
theorem C4_witness :
    1 ≤ (generate_candidates rng0 g4w (g4w.player_r + dRow Dir.up)
        (g4w.player_c + dCol Dir.up) Dir.up).length ∧
    (open_door_or_move rng0 g4w Dir.up).selection_mode = true := by
  have h := (C4_candidate_generation rng0 g4w Dir.up (fun i => by norm_num [rng0])
    (by decide) (by decide)).2 (by decide)
  refine ⟨h.1, ?_⟩
  rw [h.2.2.2.2]

/-- Characterization of one direction of the reachability check, in
propositional form. -/
theorem legalTowards_iff (g : GameState) (d : Dir) :
    legalTowards g d = true ↔
      (in_bounds (g.player_r + dRow d) (g.player_c + dCol d) = true ∧
       ((∃ pc, (g.grid (g.player_r + dRow d) (g.player_c + dCol d)).piece = some pc ∧
           (((g.grid (g.player_r + dRow d) (g.player_c + dCol d)).doors (OPP d)).getD 0 = 0 ∨
            (((g.grid (g.player_r + dRow d) (g.player_c + dCol d)).doors (OPP d)).getD 0 = 1 ∧
              (g.inventory.perm "kit_de_crochetage" = true ∨ 0 < g.inventory.conso "cles")) ∨
            (((g.grid (g.player_r + dRow d) (g.player_c + dCol d)).doors (OPP d)).getD 0 = 2 ∧
              0 < g.inventory.conso "cles"))) ∨
        ((g.grid (g.player_r + dRow d) (g.player_c + dCol d)).piece = none ∧
         ∃ p ∈ g.deck,
           (p.cond_deplac = some "edge" →
             (g.player_r + dRow d = 0 ∨ g.player_r + dRow d = ROWS - 1 ∨
              g.player_c + dCol d = 0 ∨ g.player_c + dCol d = COLS - 1)) ∧
           can_place_piece g p (g.player_r + dRow d) (g.player_c + dCol d) d = true ∧
           (p.cout = 0 ∨ (p.cout : Int) ≤ g.inventory.conso "gemmes")))) := by
  unfold legalTowards
  dsimp only
  by_cases hib : in_bounds (g.player_r + dRow d) (g.player_c + dCol d) = true
  · cases hp : (g.grid (g.player_r + dRow d) (g.player_c + dCol d)).piece with
    | some pc =>
      simp only [hib, hp, Bool.not_true, Bool.false_eq_true, if_false, Bool.or_eq_true,
        Bool.and_eq_true, beq_iff_eq, decide_eq_true_eq, true_and, Option.some.injEq]
      constructor
      · intro h
        refine Or.inl ⟨pc, rfl, ?_⟩
        tauto
      · rintro (⟨pc2, _, h⟩ | ⟨hnone, _⟩)
        · tauto
        · cases hnone
    | none =>
      simp only [hib, hp, Bool.not_true, Bool.false_eq_true, if_false, List.any_eq_true,
        Bool.and_eq_true, Bool.or_eq_true, Bool.not_eq_true', Bool.not_eq_false',
        Bool.and_eq_false_imp, beq_iff_eq, decide_eq_true_eq, true_and,
        Option.some.injEq, reduceCtorEq, false_and, and_false, exists_false, false_or]
      constructor
      · rintro ⟨p, hmem, ⟨h1, h2⟩, h3⟩
        exact ⟨p, hmem, fun hc => by have := h1 hc; tauto, h2, h3⟩
      · rintro ⟨p, hmem, h1, h2, h3⟩
        exact ⟨p, hmem, ⟨fun hc => by have := h1 hc; tauto, h2⟩, h3⟩
  · have hf : in_bounds (g.player_r + dRow d) (g.player_c + dCol d) = false := by
      cases h : in_bounds (g.player_r + dRow d) (g.player_c + dCol d)
      · rfl
      · exact absurd h hib
    simp [hf]

/-- C2 (amended): `has_legal_moves` returns true exactly when some of the 4
directions has an in-bounds neighbor that is either occupied with its
connecting lock openable (0; or 1 with kit or a key; or 2 with a key), or
empty with some deck tile that passes the rotation/port/bounds placement
check for that direction, subject only to the `edge` zone pre-filter — the
`corner` and `center` zone constraints are NOT enforced here — and that is
affordable (cost 0 or cost within the current gems).  Out-of-bounds
directions never contribute. -/
theorem C2_reachability_characterization (g : GameState) :
    has_legal_moves g = true ↔
      ∃ d : Dir,
        in_bounds (g.player_r + dRow d) (g.player_c + dCol d) = true ∧
        ((∃ pc, (g.grid (g.player_r + dRow d) (g.player_c + dCol d)).piece = some pc ∧
            (((g.grid (g.player_r + dRow d) (g.player_c + dCol d)).doors (OPP d)).getD 0 = 0 ∨
             (((g.grid (g.player_r + dRow d) (g.player_c + dCol d)).doors (OPP d)).getD 0 = 1 ∧
               (g.inventory.perm "kit_de_crochetage" = true ∨ 0 < g.inventory.conso "cles")) ∨
             (((g.grid (g.player_r + dRow d) (g.player_c + dCol d)).doors (OPP d)).getD 0 = 2 ∧
               0 < g.inventory.conso "cles"))) ∨
         ((g.grid (g.player_r + dRow d) (g.player_c + dCol d)).piece = none ∧
          ∃ p ∈ g.deck,
            (p.cond_deplac = some "edge" →
              (g.player_r + dRow d = 0 ∨ g.player_r + dRow d = ROWS - 1 ∨
               g.player_c + dCol d = 0 ∨ g.player_c + dCol d = COLS - 1)) ∧
            can_place_piece g p (g.player_r + dRow d) (g.player_c + dCol d) d = true ∧
            (p.cout = 0 ∨ (p.cout : Int) ≤ g.inventory.conso "gemmes"))) := by
  unfold has_legal_moves
  rw [List.any_eq_true]
  constructor
  · rintro ⟨d, _, hd⟩
    exact ⟨d, (legalTowards_iff g d).mp hd⟩
  · rintro ⟨d, hd⟩
    exact ⟨d, mem_dirList d, (legalTowards_iff g d).mpr hd⟩

/-- Modelled from the spec sentence behind C2: the same reachability check
but with the empty-neighbor case using the full placement check
`fits_board_and_direction`, i.e. with the edge, corner AND center zone
constraints all enforced, as the claim states. -/
def claimHasLegalMoves (g : GameState) : Bool :=
  let gems := g.inventory.conso "gemmes"
  let keys := g.inventory.conso "cles"
  let has_kit := g.inventory.perm "kit_de_crochetage"
  dirList.any (fun d =>
    let tr := g.player_r + dRow d
    let tc := g.player_c + dCol d
    if !in_bounds tr tc then false
    else
      match (g.grid tr tc).piece with
      | some _ =>
        let lock := ((g.grid tr tc).doors (OPP d)).getD 0
        lock == 0 || (lock == 1 && (has_kit || decide (0 < keys))) ||
          (lock == 2 && decide (0 < keys))
      | none =>
        g.deck.any (fun p =>
          fits_board_and_direction g p tr tc d &&
          (p.cout == 0 || decide ((p.cout : Int) ≤ gems))))

/-- A cornered state: the only empty in-bounds neighbor is the edge cell
(7,0), the only deck tile is the center-only Chamber of Mirrors, and the
occupied neighbor to the right is behind a level-2 lock with no key. -/
def gC2 : GameState :=
  { deck := [chamberOfMirrors],
    grid := fun r c =>
      if r = 8 ∧ c = 0 then { piece := some entranceHall }
      else if r = 8 ∧ c = 1 then
        { piece := some corridor, doors := fun e => if e = Dir.left then some 2 else none }
      else emptyCell,
    player_r := 8, player_c := 0,
    inventory := { conso := fun _ => 0, perm := fun _ => false },
    turn_msg := "", selection_mode := false, candidates := [], selection_pos := 0,
    target_cell := none, running := true, in_shop := false }

/-- C2 counterexample: `has_legal_moves` answers true although the only
candidate placement violates the center zone constraint — the claim's
reading (zone constraints fully enforced, as `generate_candidates` does via
`fits_board_and_direction`) answers false, and indeed the actual move is
rejected with no candidates. -/
theorem C2_counterexample :
    has_legal_moves gC2 = true ∧
    claimHasLegalMoves gC2 = false ∧
    chamberOfMirrors.cond_deplac = some "center" ∧
    generate_candidates rng0 gC2 7 0 Dir.up = [] := by
  refine ⟨?_, ?_, rfl, ?_⟩ <;> decide

/-- C2 witness: the characterization applied at a concrete state — from the
start of `g4w` the upward neighbor is empty and the corridor is placeable
and free, so a legal move exists. -/
theorem C2_witness : has_legal_moves g4w = true :=
  (C2_reachability_characterization g4w).mpr
    ⟨Dir.up, by decide,
      Or.inr ⟨by decide, corridor, by decide, by decide, by decide, by decide⟩⟩
